import Mathlib

/-!
Shallow embedding of the CATS model core (California Transportation Supply model).

Source files embedded here:
  * `cats/util/funcs.py` — numeric validators and `closest_value`
  * `cats/backend/datatypes.py` — `Feedstock`, `ProductionPathway`, `LCFS`, `Credit`
  * `cats/backend/setuplp.py` — `Model` variable/constraint construction, the
    roll-forward limit derivation and the solve/retry loop of `Model.optimize`

Python (CPython) floats are modelled by `PyVal`: a rational number, one of the
two infinities, or NaN, with IEEE-754-style comparison and arithmetic as Python
implements them.  Python `dict`s (which preserve insertion order and update
values in place) are modelled by association lists with an order-preserving
`upsert`.  Fallible Python code (raised exceptions) is modelled with
`Except String`.
-/

/-- A Python float/int value: a rational, `inf`, `-inf`, or `nan`. -/
inductive PyVal where
  | num (q : ℚ)
  | inf
  | ninf
  | nan
deriving DecidableEq, Repr

namespace PyVal

/-- Python `<` on floats: `nan` is incomparable, `-inf` is below everything else. -/
def lt : PyVal → PyVal → Bool
  | num a, num b => a < b
  | num _, inf => true
  | ninf, num _ => true
  | ninf, inf => true
  | _, _ => false

/-- Python `>` on floats. -/
def gt (a b : PyVal) : Bool := lt b a

/-- Python `==` on floats: `nan` is not equal to anything, including itself. -/
def beq : PyVal → PyVal → Bool
  | num a, num b => a == b
  | inf, inf => true
  | ninf, ninf => true
  | _, _ => false

/-- Python `+` on floats: `inf + (-inf)` is `nan`; `nan` propagates. -/
def add : PyVal → PyVal → PyVal
  | num a, num b => num (a + b)
  | num _, inf => inf
  | num _, ninf => ninf
  | inf, num _ => inf
  | ninf, num _ => ninf
  | inf, inf => inf
  | ninf, ninf => ninf
  | _, _ => nan

/-- Python unary `-` on floats. -/
def neg : PyVal → PyVal
  | num a => num (-a)
  | inf => ninf
  | ninf => inf
  | nan => nan

/-- Python `-` on floats. -/
def sub (a b : PyVal) : PyVal := add a (neg b)

/-- Python `*` on floats: `0 * inf` is `nan`; `nan` propagates. -/
def mul : PyVal → PyVal → PyVal
  | num a, num b => num (a * b)
  | num a, inf => if 0 < a then inf else if a < 0 then ninf else nan
  | num a, ninf => if 0 < a then ninf else if a < 0 then inf else nan
  | inf, num b => if 0 < b then inf else if b < 0 then ninf else nan
  | ninf, num b => if 0 < b then ninf else if b < 0 then inf else nan
  | inf, inf => inf
  | inf, ninf => ninf
  | ninf, inf => ninf
  | ninf, ninf => inf
  | _, _ => nan

/-- Python `/` on floats: dividing by (float) zero raises `ZeroDivisionError`. -/
def div : PyVal → PyVal → Except String PyVal
  | num a, num b =>
    if b = 0 then .error "ZeroDivisionError: float division by zero"
    else .ok (num (a / b))
  | inf, num b =>
    if b = 0 then .error "ZeroDivisionError: float division by zero"
    else .ok (if 0 < b then inf else ninf)
  | ninf, num b =>
    if b = 0 then .error "ZeroDivisionError: float division by zero"
    else .ok (if 0 < b then ninf else inf)
  | nan, num b =>
    if b = 0 then .error "ZeroDivisionError: float division by zero"
    else .ok nan
  | num _, inf => .ok (num 0)
  | num _, ninf => .ok (num 0)
  | _, _ => .ok nan

/-- Python truthiness of a number: zero is falsy; `inf`, `-inf` and `nan` are truthy. -/
def truthy : PyVal → Bool
  | num q => q != 0
  | _ => true

/-- `True` when the value is a non-negative number or `+inf` (used to state invariants). -/
def isNonneg : PyVal → Bool
  | num q => 0 ≤ q
  | inf => true
  | _ => false

end PyVal

/-- Python two-argument `max(a, b)`: keeps `a` unless `b > a`. -/
def pymax (a b : PyVal) : PyVal := if PyVal.lt a b then b else a

/-- Python two-argument `min(a, b)`: keeps `a` unless `b < a`. -/
def pymin (a b : PyVal) : PyVal := if PyVal.lt b a then b else a

/-- Python `int(x)` on a rational float value: truncation toward zero. -/
def pytrunc (q : ℚ) : ℤ := if q < 0 then ⌈q⌉ else ⌊q⌋

/-- Python `int(x)` on a float: `nan` and the infinities raise. -/
def pyint : PyVal → Except String ℤ
  | .num q => .ok (pytrunc q)
  | .nan => .error "ValueError: cannot convert float NaN to integer"
  | _ => .error "OverflowError: cannot convert float infinity to integer"

/-- `funcs.validate_numeric`: NaN (`pd.isna`) becomes `0`, otherwise `int(value)`. -/
def validate_numeric : PyVal → Except String ℤ
  | .nan => .ok 0
  | v => pyint v

/-- `funcs.validate_bounds`: the infinities pass through, otherwise `validate_numeric`. -/
def validate_bounds : PyVal → Except String PyVal
  | .inf => .ok .inf
  | .ninf => .ok .ninf
  | v => (validate_numeric v).map fun (z : ℤ) => .num (z : ℚ)

/-- Python `min(items, key=f)` on a list: the first element attaining the
minimal key, `ValueError` (here `none`) on an empty list. -/
def pyMinBy (f : ℤ → ℤ) : List ℤ → Option ℤ
  | [] => none
  | x :: xs => some (xs.foldl (fun b a => if f a < f b then a else b) x)

/-- Python `max(items)` on a list of ints: the first maximal element. -/
def pyMaxList : List ℤ → Option ℤ
  | [] => none
  | x :: xs => some (xs.foldl (fun b a => if b < a then a else b) x)

/-- `funcs.closest_value` with the default `positive_value=False`: the defined
key minimizing the absolute distance to `search`.  (The `positive_value=True`
branch is used only by `Feedstock.marginal_cost`, which is not embedded.) -/
def closest_value (search : ℤ) (items : List ℤ) : Option ℤ :=
  pyMinBy (fun k => |search - k|) items

/-- Association-list lookup, modelling Python `d[k]` / `k in d`. -/
def alookup {α : Type} (k : ℤ) : List (ℤ × α) → Option α
  | [] => none
  | kv :: rest => if kv.1 = k then some kv.2 else alookup k rest

/-- Association-list lookup with string keys. -/
def slookup {α : Type} (k : String) : List (String × α) → Option α
  | [] => none
  | kv :: rest => if kv.1 = k then some kv.2 else slookup k rest

/-- Python `d[k] = v` on an insertion-ordered dict: updates in place,
otherwise appends at the end. -/
def upsert {α : Type} (k : ℤ) (v : α) : List (ℤ × α) → List (ℤ × α)
  | [] => [(k, v)]
  | kv :: rest => if kv.1 = k then (k, v) :: rest else kv :: upsert k v rest

/-- The key list of an association dict, in insertion order. -/
def akeys {α : Type} (l : List (ℤ × α)) : List ℤ := l.map Prod.fst

deriving instance DecidableEq for Except

/-- The resolution relation stated by the spec-facing theorems: `k` is a
defined key minimizing the absolute distance to `search`. -/
def nearestAbs (search : ℤ) (ks : List ℤ) (k : ℤ) : Prop :=
  k ∈ ks ∧ ∀ k' ∈ ks, |search - k| ≤ |search - k'|

/-- `True` (as a `Bool`) when a Python value passed as a quantity is not a
negative number (a non-negative number, NaN, or `+inf`). -/
def nonnegInput : PyVal → Bool
  | .num q => decide (0 ≤ q)
  | .ninf => false
  | _ => true

/-!
## `datatypes.Feedstock`

`Feedstock.supply` is the insertion-ordered dict price → quantity; prices are
validated with `validate_numeric` (so stored keys are ints) and quantities with
`validate_bounds` (so stored values are ints or the infinities).
-/

/-- `Feedstock.add_supply(price, quantity)`: validate both and store. -/
def Feedstock.add_supply (supply : List (ℤ × PyVal)) (price quantity : PyVal) :
    Except String (List (ℤ × PyVal)) := do
  let p ← validate_numeric price
  let q ← validate_bounds quantity
  .ok (upsert p q supply)

/-- A sequence of `Feedstock.add_supply` calls, applied in order. -/
def Feedstock.add_supply_seq (supply : List (ℤ × PyVal)) :
    List (PyVal × PyVal) → Except String (List (ℤ × PyVal))
  | [] => .ok supply
  | c :: rest => do
    let s ← Feedstock.add_supply supply c.1 c.2
    Feedstock.add_supply_seq s rest

/-- `Feedstock.get_cumulative(price)`: validate the price, find the defined
price point closest to it (`closest_value`, absolute distance), and sum the
quantities at every price point `<=` that end point. -/
def Feedstock.get_cumulative (supply : List (ℤ × PyVal)) (price : PyVal) :
    Except String PyVal := do
  let p ← validate_numeric price
  match closest_value p (akeys supply) with
  | none => .error "ValueError: min() arg is an empty sequence"
  | some endPoint =>
    .ok (supply.foldl (fun c kv => if kv.1 ≤ endPoint then c.add kv.2 else c) (.num 0))

/-!
## `datatypes.LCFS`

`LCFS.standards` is the dict year → standard, where a standard may be `None`
(loaded from a NaN cell).  `LCFS.__getitem__` resolves a query year through
`closest_value` over the defined years.
-/

/-- `LCFS.__getitem__(year)`: `self.standards[closest_value(year, self.standards.keys())]`. -/
def LCFS.getitem (standards : List (ℤ × Option ℚ)) (year : ℤ) :
    Except String (Option ℚ) :=
  match closest_value year (akeys standards) with
  | none => .error "ValueError: min() arg is an empty sequence"
  | some y =>
    match alookup y standards with
    | some s => .ok s
    | none => .error "KeyError"

/-!
## `datatypes.ProductionPathway`

Pathways are held in two class-level registries, `feedstock → fuel → year →
pathway` and `fuel → feedstock → year → pathway`, together with the class-level
current period `ProductionPathway.period`.  Only the fields the verified claims
read are carried on the pathway record.
-/

/-- A production pathway record (the fields relevant to year resolution). -/
structure Pathway where
  year : ℤ
  yields : ℚ
deriving DecidableEq, Repr

/-- The `ProductionPathway` class-level state: the two lookup registries and
the current period. -/
structure PPRegistry where
  feedstock : List (String × List (String × List (ℤ × Pathway)))
  fuels : List (String × List (String × List (ℤ × Pathway)))
  period : Option ℤ
deriving DecidableEq, Repr

/-- The registry state at process start: empty tables, no period set. -/
def PPRegistry.empty : PPRegistry := ⟨[], [], none⟩

/-- `ProductionPathway.set_year(year)`: set the class-level current period. -/
def PPRegistry.set_year (s : PPRegistry) (y : ℤ) : PPRegistry :=
  { s with period := some y }

/-- `ProductionPathway.reset()`: clear the two lookup tables.  The current
period `cls.period` is not touched by `reset` (nor by `Loader.reset`, which
just invokes this classmethod, data.py line 223). -/
def PPRegistry.reset (s : PPRegistry) : PPRegistry :=
  { s with feedstock := [], fuels := [] }

/-- `d.setdefault(k, {})` followed by an update of the inner value: used to
model the nested `if key not in dict: dict[key] = {}` insertions. -/
def supdate {α : Type} (k : String) (f : α → α) (dflt : α) (l : List (String × α)) :
    List (String × α) :=
  match slookup k l with
  | some v =>
    (l.map fun kv => if kv.1 = k then (kv.1, f v) else kv)
  | none => l ++ [(k, f dflt)]

/-- `ProductionPathway.add_pathway`: return the existing pathway if
`fuels[fuel][feedstock][year]` is present, otherwise insert the new pathway
into both registries. -/
def PPRegistry.add_pathway (s : PPRegistry) (year : ℤ) (fuel fs : String)
    (pw : Pathway) : PPRegistry :=
  match slookup fuel s.fuels >>= fun d => slookup fs d >>= fun yd => alookup year yd with
  | some _ => s
  | none =>
    { s with
      fuels := supdate fuel (fun d => supdate fs (fun yd => upsert year pw yd) [] d) [] s.fuels
      feedstock :=
        supdate fs (fun d => supdate fuel (fun yd => upsert year pw yd) [] d) [] s.feedstock }

/-- `ProductionPathway.get(feedstock, fuel)`: resolve the year map under
`cls.feedstock[feedstock][fuel]`; with no current period take the latest
registered year (`max`), otherwise the year closest to the period
(`closest_value`, absolute distance). -/
def PPRegistry.get (s : PPRegistry) (fs fuel : String) : Except String Pathway :=
  match slookup fs s.feedstock with
  | none => .error "KeyError"
  | some fuels =>
    match slookup fuel fuels with
    | none => .error "KeyError"
    | some pathway =>
      let yearOpt := match s.period with
        | none => pyMaxList (akeys pathway)
        | some p => closest_value p (akeys pathway)
      match yearOpt with
      | none => .error "ValueError: min() arg is an empty sequence"
      | some y =>
        match alookup y pathway with
        | some pw => .ok pw
        | none => .error "KeyError"

/-!
## `ProductionPathway._generate_costs`

For each `(price, supply)` item of the feedstock's supply dict, the supply
curve entry `int((conversioncost + price) / yields) → yields * supply` is
written; `int()` truncates toward zero, and a repeated cost key overwrites the
earlier entry.
-/

/-- `ProductionPathway._generate_costs(conversioncost, yields)` over the
pathway's feedstock supply dict. -/
def generate_costs (supply : List (ℤ × PyVal)) (conversioncost yields : PyVal) :
    Except String (List (ℤ × PyVal)) :=
  supply.foldlM
    (fun curve kv => do
      let q ← (conversioncost.add (.num (kv.1 : ℚ))).div yields
      let cost ← pyint q
      .ok (upsert cost (yields.mul kv.2) curve))
    []

/-!
## `setuplp.Model._add_feedstocks` — credit-trading variables

For each credit program, `credit.supply[year]` is looked up (`None` on a
`KeyError`); when it is truthy, a solver variable is created with bounds
`[0, supply]` for a positive supply and `[-supply, +inf]` otherwise.
-/

/-- A bounded continuous solver variable (`solver.NumVar(lb, ub, name)`). -/
structure NumVar where
  lb : PyVal
  ub : PyVal
deriving DecidableEq, Repr

/-- The credit-trading variable created by `Model._add_feedstocks` for one
credit program's supply entry for the model year (`None` when absent). -/
def creditVariable (supplyEntry : Option PyVal) : Option NumVar :=
  match supplyEntry with
  | none => none
  | some s =>
    if s.truthy then
      some (if s.gt (.num 0) then ⟨.num 0, s⟩ else ⟨s.neg, .inf⟩)
    else none

/-- The credit-variable construction loop of `Model._add_feedstocks`:
`self.variables["credits"]` after iterating `self.data.credits.values()`,
each credit paired with its supply entry for the model year. -/
def buildCreditVars (credits : List (String × Option PyVal)) : List (String × NumVar) :=
  credits.foldl
    (fun acc c =>
      match creditVariable c.2 with
      | some v => acc ++ [(c.1, v)]
      | none => acc)
    []

/-- `Model._set_ci_constraint`, credit part: the coefficient given to a credit
program's trading variable — `-1` when the variable's lower bound is positive,
`+1` otherwise. -/
def creditCoefficient (v : NumVar) : ℤ :=
  if v.lb.gt (.num 0) then -1 else 1

/-- The credit loop of `Model._set_ci_constraint`: for each credit program
whose trading variable exists, the same coefficient is set in the program's own
CI constraint and in the aggregate `total` constraint.  The first component
lists the per-program constraint rows, the second the `total` constraint rows. -/
def ciCreditRows (credits : List (String × Option PyVal)) :
    List (String × ℤ) × List (String × ℤ) :=
  let vars := buildCreditVars credits
  credits.foldl
    (fun acc c =>
      match slookup c.1 vars with
      | some v => (acc.1 ++ [(c.1, creditCoefficient v)], acc.2 ++ [(c.1, creditCoefficient v)])
      | none => acc)
    ([], [])

/-!
## `setuplp.Model` — roll-forward limits and the supply constraint

`_calculate_incremental_limits` derives `(minimum, maximum)` around each
fuel's realized production; `_set_supply_constraint` intersects these with the
externally configured per-fuel bounds and raises when minimum > maximum.
-/

/-- The fixed zeroing-out threshold of `_calculate_incremental_limits`
(`1e9` MJ). -/
def materialityThreshold : ℚ := 1000000000

/-- The fixed minimum facility size used in `_set_supply_constraint`
(`50*1e6*115.83` = 5791500000). -/
def floorVolume : ℚ := 50 * 1000000 * (11583 / 100)

/-- `Model._calculate_incremental_limits(threshold=1e9)`: for each fuel with
realized production `value`, the derived bounds are
`((1-p)*value` zeroed when below the threshold`, (1+p)*value)`. -/
def calculate_incremental_limits (defaultLimit : ℚ) (resolvedSupply : List (String × ℚ)) :
    List (String × (ℚ × ℚ)) :=
  resolvedSupply.map fun fv =>
    let minimum := (1 - defaultLimit) * fv.2
    let maximum := (1 + defaultLimit) * fv.2
    (fv.1, ((if minimum < materialityThreshold then 0 else minimum), maximum))

/-- The externally configured data of one fuel that `_set_supply_constraint`
reads: `fuel.supply` (year → (minimum energy, policy attribution)) and
`fuel.limits` (year → (maximum volume, YoY percent change)). -/
structure FuelData where
  name : String
  supply : List (ℤ × (PyVal × Option String))
  limits : List (ℤ × (PyVal × PyVal))
deriving Repr

/-- The body of `_set_supply_constraint` for one fuel: the effective
`(minimum, maximum)` bound registered for the fuel, `none` when no constraint
is added (the skip paths), or an error when minimum > maximum.  The
`attribution` string only affects the constraint's display name and is not
modelled. -/
def set_supply_bound (defaultLimit : ℚ) (priorSolution : List (String × (ℚ × ℚ)))
    (year : ℤ) (fuel : FuelData) : Except String (Option (PyVal × PyVal)) :=
  let min_value := match alookup year fuel.supply with
    | some e => e.1
    | none => PyVal.num 0
  let max_value := match alookup year fuel.limits with
    | some e => e.1
    | none => PyVal.inf
  let pct_change := match alookup year fuel.limits with
    | some e => e.2
    | none => PyVal.num defaultLimit
  if min_value.beq (.num 0) && max_value.beq .inf && (slookup fuel.name priorSolution).isNone
  then .ok none
  else do
    let bounds ← (match slookup fuel.name priorSolution with
      | some pm =>
        if !(pct_change.beq (.num 0)) then do
          let old_value ← (PyVal.num pm.1).div (.num (1 - defaultLimit))
          let prior_min := ((PyVal.num 1).sub pct_change).mul old_value
          let prior_max := pymax (((PyVal.num 1).add pct_change).mul old_value) (.num floorVolume)
          .ok (pymax min_value prior_min, pymin max_value prior_max)
        else
          .ok (pymax min_value (.num pm.1), pymin max_value (.num pm.2))
      | none => .ok (min_value, max_value))
    if bounds.1.gt bounds.2 then
      .error "The model will be unable to converge: minimum fuel requirement exceeds maximum"
    else if bounds.1.beq (.num 0) && bounds.2.beq (.num 0) then
      .ok none
    else
      .ok (some bounds)

/-- `Model._set_supply_constraint`: the per-fuel bounds over
`self.data.fuels.values()`, in order; the first fuel whose minimum exceeds its
maximum raises. -/
def set_supply_constraint (defaultLimit : ℚ) (priorSolution : List (String × (ℚ × ℚ)))
    (year : ℤ) : List FuelData → Except String (List (String × (PyVal × PyVal)))
  | [] => .ok []
  | f :: rest => do
    let b ← set_supply_bound defaultLimit priorSolution year f
    let others ← set_supply_constraint defaultLimit priorSolution year rest
    match b with
    | some mm => .ok ((f.name, mm) :: others)
    | none => .ok others

/-!
## `setuplp.Model.optimize` — solve and bounded retry

`optimize` builds the variables and constraints, then calls the solver.  On an
`ABNORMAL` status it raises if the current tolerance already exceeds `10`,
otherwise multiplies the tolerance by 10 (`_set_tolerance`) and re-runs the
whole build-and-solve cycle.
-/

/-- The solver statuses `optimize` distinguishes. -/
inductive SolveStatus where
  | optimal
  | infeasible
  | abnormal
  | other
deriving DecidableEq, Repr

/-- The initial feasibility tolerance set in `Model.__init__` (`1e-6`). -/
def tolerance0 : ℚ := 1 / 1000000

/-- `Model._set_tolerance`: the tolerance after one more adjustment. -/
def set_tolerance (t : ℚ) : ℚ := 10 * t

/-- The tolerance in force at the `k`-th solve attempt (zero-based). -/
def toleranceAt : ℕ → ℚ
  | 0 => tolerance0
  | k + 1 => set_tolerance (toleranceAt k)

/-- The control flow of `Model.optimize` from the `k`-th solve attempt on:
the pre-solve build (data verification, variables, constraints) is the
`build` argument — when it raises, the solver is never invoked; otherwise the
solver runs at the current tolerance, and an `ABNORMAL` status either raises
(tolerance above the ceiling `10`) or retries with the tolerance multiplied by
10.  The second component counts the solver invocations. -/
def optimizeFrom (build : Except String Unit) (solver : ℚ → SolveStatus) (k : ℕ) :
    Except String SolveStatus × ℕ :=
  match build with
  | .error e => (.error e, 0)
  | .ok _ =>
    let status := solver (toleranceAt k)
    if status = .abnormal then
      if toleranceAt k > 10 then
        (.error "Model could not be resolved.  There is likely an issue with the magnitude of units being analyzed.", 1)
      else
        let r := optimizeFrom build solver (k + 1)
        (r.1, r.2 + 1)
    else
      (.ok status, 1)
termination_by 8 - k
decreasing_by
  have h : ¬ toleranceAt k > 10 := by assumption
  have he : ∀ n, toleranceAt n = (10 : ℚ) ^ n / 1000000 := by
    intro n
    induction n with
    | zero => simp [toleranceAt, tolerance0]
    | succ m ih => rw [toleranceAt, set_tolerance, ih]; ring
  have hk : k ≤ 7 := by
    by_contra hc
    push_neg at hc
    apply h
    rw [he k, gt_iff_lt, lt_div_iff₀ (by norm_num)]
    calc (10 : ℚ) * 1000000 < 10 ^ 8 := by norm_num
    _ ≤ 10 ^ k := by
      apply pow_le_pow_right₀ (by norm_num)
      omega
  omega

/-- `True` (as a `Bool`) when an `Except` computation raised. -/
def exceptFailed {α : Type} : Except String α → Bool
  | .error _ => true
  | .ok _ => false

/-!
## Helper lemmas about the dict and `min`/`max` models
-/

@[simp] theorem ebind_ok {ε α β : Type} (a : α) (f : α → Except ε β) :
    (Except.ok a : Except ε α) >>= f = f a := rfl

@[simp] theorem ebind_error {ε α β : Type} (e : ε) (f : α → Except ε β) :
    (Except.error e : Except ε α) >>= f = (Except.error e : Except ε β) := rfl

@[simp] theorem epure_eq_ok {ε α : Type} (a : α) :
    (pure a : Except ε α) = Except.ok a := rfl

@[simp] theorem emap_ok {ε α β : Type} (a : α) (f : α → β) :
    Except.map f (.ok a : Except ε α) = .ok (f a) := rfl

@[simp] theorem emap_error {ε α β : Type} (e : ε) (f : α → β) :
    Except.map f (.error e : Except ε α) = .error e := rfl


theorem alookup_mem {α : Type} {k : ℤ} {l : List (ℤ × α)} (h : k ∈ akeys l) :
    ∃ v, alookup k l = some v ∧ (k, v) ∈ l := by
  induction l with
  | nil => simp [akeys] at h
  | cons kv rest ih =>
    obtain ⟨a, b⟩ := kv
    by_cases hk : a = k
    · subst hk
      exact ⟨b, by simp [alookup], List.mem_cons_self _ _⟩
    · simp only [akeys, List.map_cons, List.mem_cons] at h
      rcases h with h | h
      · exact absurd h.symm hk
      · obtain ⟨v, hv, hmem⟩ := ih (by simpa [akeys] using h)
        exact ⟨v, by simp [alookup, hk, hv], by right; exact hmem⟩

theorem alookup_upsert_self {α : Type} (k : ℤ) (v : α) (l : List (ℤ × α)) :
    alookup k (upsert k v l) = some v := by
  induction l with
  | nil => simp [upsert, alookup]
  | cons kv rest ih =>
    by_cases hk : kv.1 = k
    · simp [upsert, hk, alookup]
    · simp [upsert, hk, alookup, ih]

theorem alookup_upsert_ne {α : Type} {k k' : ℤ} (hne : k' ≠ k) (v : α) (l : List (ℤ × α)) :
    alookup k' (upsert k v l) = alookup k' l := by
  have hkk : ¬ k = k' := fun hc => hne hc.symm
  induction l with
  | nil => simp [upsert, alookup, hkk]
  | cons kv rest ih =>
    by_cases hk : kv.1 = k
    · rw [upsert, if_pos hk]
      rw [alookup, alookup, if_neg hkk, if_neg (by rw [hk]; exact hkk)]
    · rw [upsert, if_neg hk]
      rw [alookup, alookup]
      by_cases hk' : kv.1 = k'
      · rw [if_pos hk', if_pos hk']
      · rw [if_neg hk', if_neg hk', ih]

theorem slookup_eq_none {α : Type} {name : String} {l : List (String × α)}
    (h : ∀ kv ∈ l, kv.1 ≠ name) : slookup name l = none := by
  induction l with
  | nil => rfl
  | cons kv rest ih =>
    have h1 : kv.1 ≠ name := h kv (by simp)
    simp only [slookup, if_neg h1]
    exact ih fun x hx => h x (by simp [hx])

theorem foldl_minBy_spec (f : ℤ → ℤ) (xs : List ℤ) (x : ℤ) :
    (xs.foldl (fun b a => if f a < f b then a else b) x) ∈ x :: xs ∧
    ∀ a ∈ x :: xs, f (xs.foldl (fun b a => if f a < f b then a else b) x) ≤ f a := by
  induction xs generalizing x with
  | nil => simp
  | cons y ys ih =>
    simp only [List.foldl_cons]
    by_cases hy : f y < f x
    · rw [if_pos hy]
      obtain ⟨hmem, hle⟩ := ih y
      refine ⟨?_, ?_⟩
      · rw [List.mem_cons] at hmem ⊢
        rw [List.mem_cons]
        tauto
      · intro a ha
        rw [List.mem_cons, List.mem_cons] at ha
        rcases ha with rfl | rfl | ha
        · exact (hle y (List.mem_cons_self _ _)).trans hy.le
        · exact hle a (List.mem_cons_self _ _)
        · exact hle a (List.mem_cons.mpr (Or.inr ha))
    · rw [if_neg hy]
      obtain ⟨hmem, hle⟩ := ih x
      refine ⟨?_, ?_⟩
      · rw [List.mem_cons] at hmem ⊢
        rw [List.mem_cons]
        tauto
      · intro a ha
        rw [List.mem_cons, List.mem_cons] at ha
        rcases ha with rfl | rfl | ha
        · exact hle a (List.mem_cons_self _ _)
        · exact (hle x (List.mem_cons_self _ _)).trans (not_lt.mp hy)
        · exact hle a (List.mem_cons.mpr (Or.inr ha))

theorem pyMinBy_spec {f : ℤ → ℤ} {l : List ℤ} {r : ℤ} (h : pyMinBy f l = some r) :
    r ∈ l ∧ ∀ a ∈ l, f r ≤ f a := by
  match l with
  | [] => simp [pyMinBy] at h
  | x :: xs =>
    simp only [pyMinBy, Option.some.injEq] at h
    subst h
    exact foldl_minBy_spec f xs x

theorem pyMinBy_isSome {f : ℤ → ℤ} {l : List ℤ} (h : l ≠ []) :
    ∃ r, pyMinBy f l = some r := by
  match l with
  | [] => exact absurd rfl h
  | x :: xs => exact ⟨_, rfl⟩

theorem pymax_num (a b : ℚ) : pymax (.num a) (.num b) = .num (max a b) := by
  simp only [pymax, PyVal.lt, max_def]
  rcases lt_trichotomy a b with h | h | h
  · simp [h, le_of_lt h]
  · simp [h]
  · simp [not_lt_of_gt h, not_le_of_gt h, h.le]

/-!
## Further helper lemmas
-/

theorem pytrunc_intCast (z : ℤ) : pytrunc (z : ℚ) = z := by
  unfold pytrunc
  split
  · exact Int.ceil_intCast z
  · exact Int.floor_intCast z

theorem akeys_map_num {β : Type} (sq : List (ℤ × β)) (g : β → PyVal) :
    akeys (sq.map fun t => (t.1, g t.2)) = sq.map Prod.fst := by
  simp [akeys, List.map_map, Function.comp]

theorem fold_cumulative (sq : List (ℤ × ℚ)) (e : ℤ) (init : ℚ) :
    (sq.map fun t => (t.1, PyVal.num t.2)).foldl
        (fun (c : PyVal) (kv : ℤ × PyVal) => if kv.1 ≤ e then c.add kv.2 else c) (.num init)
      = .num (init + (((sq.filter fun t => t.1 ≤ e).map Prod.snd).sum)) := by
  induction sq generalizing init with
  | nil => simp
  | cons t rest ih =>
    simp only [List.map_cons, List.foldl_cons]
    by_cases h : t.1 ≤ e
    · rw [if_pos h]
      have hadd : PyVal.add (.num init) (.num t.2) = .num (init + t.2) := rfl
      rw [hadd, ih, List.filter_cons, if_pos (by simpa using h)]
      simp [add_assoc]
    · rw [if_neg h, ih, List.filter_cons, if_neg (by simpa using h)]

theorem toleranceAt_eq (k : ℕ) : toleranceAt k = (10 : ℚ) ^ k / 1000000 := by
  induction k with
  | zero => simp [toleranceAt, tolerance0]
  | succ n ih =>
    rw [toleranceAt, set_tolerance, ih]
    ring

/-!
## Claim C5 — benchmark year resolution
-/

/-- C5 (counterexample): with standards defined for 2020 (value 90) and 2030
(value 80), the query year 2029 resolves to 2030 — not to the nearest prior
defined year, which is 2020 with value 90. -/
theorem C5_counterexample :
    LCFS.getitem [(2020, some 90), (2030, some 80)] 2029 = .ok (some 80) ∧
    List.filter (fun kv => kv.1 ≤ 2029) [((2020:ℤ), some (90:ℚ)), (2030, some 80)]
      = [(2020, some 90)] ∧
    (some (80:ℚ) ≠ some (90:ℚ)) := by
  refine ⟨by decide, by decide, by decide⟩

/-- C5 (amended): for a benchmark with at least one defined year,
`benchmark[y]` returns the standard recorded at a defined year minimizing the
absolute distance to `y` — not the nearest prior defined year. -/
theorem C5_benchmark_nearest_abs (standards : List (ℤ × Option ℚ)) (year : ℤ)
    (hne : standards ≠ []) :
    ∃ k s, (k, s) ∈ standards ∧ nearestAbs year (akeys standards) k ∧
      LCFS.getitem standards year = .ok s := by
  have hkeys : akeys standards ≠ [] := by
    cases standards with
    | nil => exact absurd rfl hne
    | cons kv rest => simp [akeys]
  obtain ⟨r, hr⟩ := pyMinBy_isSome (f := fun k => |year - k|) hkeys
  have hspec := pyMinBy_spec hr
  obtain ⟨v, hl, hmem⟩ := alookup_mem hspec.1
  refine ⟨r, v, hmem, ⟨hspec.1, hspec.2⟩, ?_⟩
  simp [LCFS.getitem, closest_value, hr, hl]

/-- Witness for C5: the amended statement instantiated at the two-year
benchmark of the counterexample. -/
theorem C5_witness :
    ([((2020:ℤ), some (90:ℚ)), (2030, some 80)] ≠ []) ∧
    (∃ k s, (k, s) ∈ [((2020:ℤ), some (90:ℚ)), (2030, some 80)] ∧
      nearestAbs 2029 (akeys [((2020:ℤ), some (90:ℚ)), (2030, some 80)]) k ∧
      LCFS.getitem [(2020, some 90), (2030, some 80)] 2029 = .ok s) :=
  ⟨by decide, C5_benchmark_nearest_abs [(2020, some 90), (2030, some 80)] 2029 (by decide)⟩

/-!
## Claim C6 — cumulative feedstock supply
-/

/-- C6 (counterexample): for supply tiers at prices 10 (quantity 5) and 100
(quantity 7), `cumulative(80)` returns 12 — 100 is the absolutely-nearest
defined price — while the points at prices `<= 80` sum to 5. -/
theorem C6_counterexample :
    Feedstock.get_cumulative [(10, .num 5), (100, .num 7)] (.num 80) = .ok (.num 12) ∧
    ((([((10:ℤ), (5:ℚ)), (100, 7)].filter fun t => t.1 ≤ 80).map Prod.snd).sum = 5) ∧
    ((12:ℚ) ≠ 5) := by
  refine ⟨?_, by norm_num [List.filter_cons], by norm_num⟩
  norm_num [Feedstock.get_cumulative, validate_numeric, pyint, pytrunc, closest_value, akeys,
    pyMinBy, PyVal.add]

/-- C6 (amended): for a feedstock with at least one (finite) supply tier,
`cumulative(p)` is the sum of the quantities at all defined price points
`<=` the defined price point nearest to `p` in absolute distance (not the
nearest point `<= p`). -/
theorem C6_cumulative_nearest_abs (sq : List (ℤ × ℚ)) (price : ℤ) (hne : sq ≠ []) :
    ∃ e, nearestAbs price (sq.map Prod.fst) e ∧
      Feedstock.get_cumulative (sq.map fun t => (t.1, PyVal.num t.2)) (.num (price : ℚ)) =
        .ok (.num (((sq.filter fun t => t.1 ≤ e).map Prod.snd).sum)) := by
  have hkeys : sq.map Prod.fst ≠ [] := by
    cases sq with
    | nil => exact absurd rfl hne
    | cons t rest => simp
  obtain ⟨e, he⟩ := pyMinBy_isSome (f := fun k => |price - k|) hkeys
  have hspec := pyMinBy_spec he
  refine ⟨e, ⟨hspec.1, hspec.2⟩, ?_⟩
  have hcv : closest_value price (akeys (sq.map fun t => (t.1, PyVal.num t.2))) = some e := by
    rw [closest_value, akeys_map_num]
    exact he
  simp only [Feedstock.get_cumulative, validate_numeric, pyint, pytrunc_intCast, ebind_ok, hcv]
  rw [fold_cumulative]
  norm_num

/-- Witness for C6: the amended statement instantiated at the supply of the
counterexample and price 80 (it resolves to the tier at price 100). -/
theorem C6_witness :
    (([((10:ℤ), (5:ℚ)), (100, 7)] : List (ℤ × ℚ)) ≠ []) ∧
    (∃ e, nearestAbs 80 ([((10:ℤ), (5:ℚ)), (100, 7)].map Prod.fst) e ∧
      Feedstock.get_cumulative ([((10:ℤ), (5:ℚ)), (100, 7)].map fun t => (t.1, PyVal.num t.2))
          (.num ((80:ℤ) : ℚ)) =
        .ok (.num ((([((10:ℤ), (5:ℚ)), (100, 7)].filter fun t => t.1 ≤ e).map Prod.snd).sum))) :=
  ⟨by decide, C6_cumulative_nearest_abs [(10, 5), (100, 7)] 80 (by decide)⟩

/-!
## Claim C7 — pathway year resolution (concrete scenario)
-/

/-- C7: with two pathways registered for (TestFuel, Feedstock) in 2020
(yield 1) and 2021 (yield 10), setting the current period to 2020 resolves the
2020 pathway, to 2021 the 2021 pathway, to 2031 (beyond both) the latest
year's pathway, and with no period set the latest registered year's pathway. -/
theorem C7_pathway_year_resolution :
    ((((PPRegistry.empty.add_pathway 2020 "TestFuel" "Feedstock" ⟨2020, 1⟩).add_pathway
        2021 "TestFuel" "Feedstock" ⟨2021, 10⟩).set_year 2020).get "Feedstock" "TestFuel"
      = .ok ⟨2020, 1⟩) ∧
    ((((PPRegistry.empty.add_pathway 2020 "TestFuel" "Feedstock" ⟨2020, 1⟩).add_pathway
        2021 "TestFuel" "Feedstock" ⟨2021, 10⟩).set_year 2021).get "Feedstock" "TestFuel"
      = .ok ⟨2021, 10⟩) ∧
    ((((PPRegistry.empty.add_pathway 2020 "TestFuel" "Feedstock" ⟨2020, 1⟩).add_pathway
        2021 "TestFuel" "Feedstock" ⟨2021, 10⟩).set_year 2031).get "Feedstock" "TestFuel"
      = .ok ⟨2021, 10⟩) ∧
    (((PPRegistry.empty.add_pathway 2020 "TestFuel" "Feedstock" ⟨2020, 1⟩).add_pathway
        2021 "TestFuel" "Feedstock" ⟨2021, 10⟩).period = none) ∧
    (((PPRegistry.empty.add_pathway 2020 "TestFuel" "Feedstock" ⟨2020, 1⟩).add_pathway
        2021 "TestFuel" "Feedstock" ⟨2021, 10⟩).get "Feedstock" "TestFuel"
      = .ok ⟨2021, 10⟩) := by
  refine ⟨by decide, by decide, by decide, by decide, by decide⟩

/-!
## Claim C10 — `reset` clears tables, keeps the period
-/

/-- C10: `ProductionPathway.reset` (invoked by `Loader.reset`) clears both
pathway lookup tables but leaves the class-level current period unchanged:
after `set_year(y)` followed by `reset()` the stored period is still `y`. -/
theorem C10_reset_preserves_period (s : PPRegistry) (y : ℤ) :
    ((s.set_year y).reset).period = some y ∧
    ((s.set_year y).reset).feedstock = [] ∧
    ((s.set_year y).reset).fuels = [] :=
  ⟨rfl, rfl, rfl⟩

/-!
## Claim C9 — quantities stored by `add_supply`
-/

theorem validate_bounds_ok_nonneg {v w : PyVal} (hv : nonnegInput v = true)
    (hw : validate_bounds v = .ok w) : w.isNonneg = true := by
  cases v with
  | num q =>
    simp only [nonnegInput, decide_eq_true_eq] at hv
    simp only [validate_bounds, validate_numeric, pyint, emap_ok, Except.ok.injEq] at hw
    have hq : ¬ q < 0 := not_lt.mpr hv
    have hnn : (0:ℤ) ≤ pytrunc q := by
      rw [pytrunc, if_neg hq]
      exact Int.floor_nonneg.mpr hv
    rw [← hw]
    simp only [PyVal.isNonneg, decide_eq_true_eq]
    exact_mod_cast hnn
  | inf =>
    simp only [validate_bounds, Except.ok.injEq] at hw
    rw [← hw]
    rfl
  | ninf => simp [nonnegInput] at hv
  | nan =>
    simp only [validate_bounds, validate_numeric, emap_ok, Except.ok.injEq] at hw
    rw [← hw]
    rfl

theorem all_upsert {α : Type} (p : α → Bool) (k : ℤ) (v : α) (l : List (ℤ × α))
    (hl : l.all (fun kv => p kv.2) = true) (hv : p v = true) :
    (upsert k v l).all (fun kv => p kv.2) = true := by
  induction l with
  | nil => simp [upsert, hv]
  | cons kv rest ih =>
    simp only [List.all_cons, Bool.and_eq_true] at hl
    by_cases hk : kv.1 = k
    · simp [upsert, hk, List.all_cons, hv, hl.2]
    · simp [upsert, hk, List.all_cons, hl.1, ih hl.2]

/-- C9 (counterexample): a single `add_supply` call with quantity `-3` is
accepted and stores the negative quantity: `validate_bounds` does not reject
negative numbers. -/
theorem C9_counterexample :
    Feedstock.add_supply_seq [] [((.num 1), (.num (-3)))] = .ok [(1, .num (-3))] ∧
    (PyVal.num (-3)).isNonneg = false := by
  constructor
  · norm_num [Feedstock.add_supply_seq, Feedstock.add_supply, validate_numeric, validate_bounds,
      pyint, pytrunc, upsert, Int.ceil_neg]
  · decide

/-- C9 (amended): after any sequence of `add_supply(price, quantity)` calls in
which no quantity passed is a negative number (each is a non-negative number,
NaN — validated to 0 — or `+inf`), every quantity stored in the supply mapping
is non-negative.  The code itself never rejects a negative quantity. -/
theorem C9_nonneg_amended (supply : List (ℤ × PyVal)) (calls : List (PyVal × PyVal))
    (result : List (ℤ × PyVal))
    (hsup : supply.all (fun kv => kv.2.isNonneg) = true)
    (hcalls : calls.all (fun c => nonnegInput c.2) = true)
    (hrun : Feedstock.add_supply_seq supply calls = .ok result) :
    result.all (fun kv => kv.2.isNonneg) = true := by
  induction calls generalizing supply with
  | nil =>
    simp only [Feedstock.add_supply_seq, Except.ok.injEq] at hrun
    rw [← hrun]
    exact hsup
  | cons c rest ih =>
    simp only [List.all_cons, Bool.and_eq_true] at hcalls
    rw [Feedstock.add_supply_seq] at hrun
    cases hs : Feedstock.add_supply supply c.1 c.2 with
    | error e => rw [hs] at hrun; simp at hrun
    | ok s =>
      rw [hs] at hrun
      simp only [ebind_ok] at hrun
      have hsall : s.all (fun kv => kv.2.isNonneg) = true := by
        rw [Feedstock.add_supply] at hs
        cases hp : validate_numeric c.1 with
        | error e => rw [hp] at hs; simp at hs
        | ok p =>
          rw [hp] at hs
          simp only [ebind_ok] at hs
          cases hq : validate_bounds c.2 with
          | error e => rw [hq] at hs; simp at hs
          | ok w =>
            rw [hq] at hs
            simp only [ebind_ok, Except.ok.injEq] at hs
            rw [← hs]
            exact all_upsert _ p w supply hsup (validate_bounds_ok_nonneg hcalls.1 hq)
      exact ih s hsall hcalls.2 hrun

/-- Witness for C9: a run with a positive quantity and a NaN quantity leaves
only non-negative stored quantities. -/
theorem C9_witness :
    ([((1:ℤ), PyVal.num 5), (2, PyVal.num 0)].all (fun kv => kv.2.isNonneg) = true) :=
  C9_nonneg_amended [] [((.num 1), (.num 5)), ((.num 2), .nan)] _
    (by decide) (by decide)
    (by norm_num [Feedstock.add_supply_seq, Feedstock.add_supply, validate_numeric,
      validate_bounds, pyint, pytrunc, upsert])

/-!
## Claim C2 — pathway supply-curve generation
-/

theorem foldlM_of_foldl {α β : Type} (F : β → α → Except String β) (G : β → α → β)
    (l : List α) (h : ∀ (acc : β) (a : α), a ∈ l → F acc a = .ok (G acc a)) (acc : β) :
    l.foldlM F acc = .ok (l.foldl G acc) := by
  induction l generalizing acc with
  | nil => simp [List.foldlM]
  | cons x xs ih =>
    simp only [List.foldlM, List.foldl_cons]
    rw [h acc x (by simp), ebind_ok]
    exact ih (fun acc a ha => h acc a (by simp [ha])) _

theorem generate_costs_eq (sq : List (ℤ × ℚ)) (c y : ℚ) (hy : y ≠ 0) :
    generate_costs (sq.map fun t => (t.1, PyVal.num t.2)) (.num c) (.num y)
      = .ok (sq.foldl
          (fun cur t => upsert (pytrunc ((c + t.1) / y)) (.num (y * t.2)) cur) []) := by
  rw [generate_costs]
  refine (foldlM_of_foldl _
    (fun cur (kv : ℤ × PyVal) => upsert (pytrunc ((c + kv.1) / y)) ((PyVal.num y).mul kv.2) cur)
    _ ?_ []).trans ?_
  · intro acc a _
    simp [PyVal.add, PyVal.div, hy, pyint]
  · rw [List.foldl_map]
    rfl

theorem alookup_foldl_upsert_ne (sq : List (ℤ × ℚ)) (key : (ℤ × ℚ) → ℤ)
    (val : (ℤ × ℚ) → PyVal) (k : ℤ) (acc : List (ℤ × PyVal))
    (hk : ∀ t ∈ sq, key t ≠ k) :
    alookup k (sq.foldl (fun cur t => upsert (key t) (val t) cur) acc) = alookup k acc := by
  induction sq generalizing acc with
  | nil => rfl
  | cons t rest ih =>
    simp only [List.foldl_cons]
    rw [ih _ fun x hx => hk x (by simp [hx])]
    exact alookup_upsert_ne (fun hc => hk t (by simp) hc.symm) _ _

theorem alookup_foldl_upsert (sq : List (ℤ × ℚ)) (key : (ℤ × ℚ) → ℤ)
    (val : (ℤ × ℚ) → PyVal) (t0 : ℤ × ℚ) (acc : List (ℤ × PyVal))
    (hmem : t0 ∈ sq) (hnodup : (sq.map key).Nodup) :
    alookup (key t0) (sq.foldl (fun cur t => upsert (key t) (val t) cur) acc)
      = some (val t0) := by
  induction sq generalizing acc with
  | nil => simp at hmem
  | cons t rest ih =>
    simp only [List.map_cons, List.nodup_cons] at hnodup
    rcases List.mem_cons.mp hmem with rfl | hmem1
    · simp only [List.foldl_cons]
      rw [alookup_foldl_upsert_ne rest key val (key t0) _
        (fun x hx hc => hnodup.1 (hc ▸ List.mem_map_of_mem key hx))]
      exact alookup_upsert_self _ _ _
    · simp only [List.foldl_cons]
      exact ih _ hmem1 hnodup.2

/-- C2 (counterexample): the per-tier mapping claim fails in two ways.  With
tiers (10,100) and (11,50), conversion cost 100 and yield 10, both tiers hit
cost key 11 and the later tier overwrites the earlier, so key 11 maps to 500,
not 1000.  And with tier (0,100), conversion cost -15 and yield 10, the cost
key is the truncation -1, while the claimed floor((-15+0)/10) = -2 is not in
the curve at all. -/
theorem C2_counterexample :
    (generate_costs [(10, .num 100), (11, .num 50)] (.num 100) (.num 10)
        = .ok [(11, .num 500)] ∧
      PyVal.num 500 ≠ PyVal.num 1000) ∧
    (generate_costs [(0, .num 100)] (.num (-15)) (.num 10) = .ok [(-1, .num 1000)] ∧
      ⌊((-15:ℚ) + 0) / 10⌋ = -2 ∧
      alookup (-2) [((-1:ℤ), PyVal.num 1000)] = none) := by
  refine ⟨⟨?_, by simp⟩, ?_, by norm_num, by decide⟩
  · norm_num [generate_costs, List.foldlM, PyVal.add, PyVal.div, PyVal.mul, pyint, pytrunc,
      upsert]
  · norm_num [generate_costs, List.foldlM, PyVal.add, PyVal.div, PyVal.mul, pyint, pytrunc,
      upsert, Int.ceil_neg]

/-- C2 (amended): for a pathway with finite conversion cost, non-zero finite
yield and finite feedstock tiers whose derived cost keys are pairwise
distinct, the supply curve maps, for each tier (price, quantity), the key
trunc((conversionCost + price) / yield) — Python `int()` truncation toward
zero, which equals the claimed floor for non-negative quotients — to the
quantity yield * quantity.  On colliding keys the later tier overwrites the
earlier one. -/
theorem C2_supply_curve_amended (sq : List (ℤ × ℚ)) (c y : ℚ) (hy : y ≠ 0)
    (hnodup : (sq.map fun t => pytrunc ((c + t.1) / y)).Nodup) :
    ∃ curve,
      generate_costs (sq.map fun t => (t.1, PyVal.num t.2)) (.num c) (.num y) = .ok curve ∧
      ∀ t ∈ sq, alookup (pytrunc ((c + t.1) / y)) curve = some (.num (y * t.2)) := by
  refine ⟨_, generate_costs_eq sq c y hy, ?_⟩
  intro t ht
  exact alookup_foldl_upsert sq (fun t => pytrunc ((c + t.1) / y))
    (fun t => .num (y * t.2)) t [] ht hnodup

/-- Witness for C2: the spec's own example — one tier (10,100), conversion
cost 100, yield 10 — where the curve maps key trunc((100+10)/10) = 11 to
quantity 10*100 = 1000. -/
theorem C2_witness :
    ((10:ℚ) ≠ 0) ∧
    (pytrunc ((100 + ((10:ℤ):ℚ)) / 10) = 11) ∧
    ((10:ℚ) * 100 = 1000) ∧
    (∃ curve,
      generate_costs ([((10:ℤ), (100:ℚ))].map fun t => (t.1, PyVal.num t.2))
          (.num 100) (.num 10) = .ok curve ∧
      alookup (pytrunc ((100 + ((10:ℤ):ℚ)) / 10)) curve
        = some (.num ((10:ℚ) * 100))) := by
  refine ⟨by norm_num, by norm_num [pytrunc], by norm_num, ?_⟩
  obtain ⟨curve, hgen, hall⟩ := C2_supply_curve_amended [(10, 100)] 100 10 (by norm_num)
    (by simp)
  exact ⟨curve, hgen, hall (10, 100) (by simp)⟩

/-!
## Claim C1 — credit-trading variables and their CI coefficients
-/

theorem mem_filterMap_key {β γ : Type} (credits : List (String × β))
    (g : String × β → Option (String × γ)) (hg : ∀ c r, g c = some r → r.1 = c.1) :
    ∀ kv ∈ credits.filterMap g, kv.1 ∈ credits.map Prod.fst := by
  intro kv hkv
  obtain ⟨c, hc, he⟩ := List.mem_filterMap.mp hkv
  rw [hg c kv he]
  exact List.mem_map_of_mem Prod.fst hc

theorem creditEntry_key (c : String × Option PyVal) (r : String × NumVar)
    (hr : (creditVariable c.2).map (fun v => (c.1, v)) = some r) : r.1 = c.1 := by
  cases hcv : creditVariable c.2 with
  | none => rw [hcv] at hr; simp at hr
  | some w =>
    rw [hcv, Option.map_some'] at hr
    injection hr with h
    rw [← h]

theorem coefEntry_key (vars : List (String × NumVar)) (c : String × Option PyVal)
    (r : String × ℤ)
    (hr : (slookup c.1 vars).map (fun v => (c.1, creditCoefficient v)) = some r) :
    r.1 = c.1 := by
  cases hcv : slookup c.1 vars with
  | none => rw [hcv] at hr; simp at hr
  | some w =>
    rw [hcv, Option.map_some'] at hr
    injection hr with h
    rw [← h]

theorem buildCreditVars_aux (credits : List (String × Option PyVal))
    (acc : List (String × NumVar)) :
    credits.foldl
      (fun acc c =>
        match creditVariable c.2 with
        | some v => acc ++ [(c.1, v)]
        | none => acc) acc
    = acc ++ credits.filterMap (fun c => (creditVariable c.2).map fun v => (c.1, v)) := by
  induction credits generalizing acc with
  | nil => simp
  | cons c rest ih =>
    cases hc : creditVariable c.2 with
    | none => simp [List.foldl_cons, hc, List.filterMap_cons, ih]
    | some v => simp [List.foldl_cons, hc, List.filterMap_cons, ih]

theorem buildCreditVars_eq (credits : List (String × Option PyVal)) :
    buildCreditVars credits
      = credits.filterMap (fun c => (creditVariable c.2).map fun v => (c.1, v)) := by
  rw [buildCreditVars, buildCreditVars_aux]
  simp

theorem slookup_buildCreditVars (credits : List (String × Option PyVal))
    (name : String) (entry : Option PyVal)
    (hnodup : (credits.map Prod.fst).Nodup) (hmem : (name, entry) ∈ credits) :
    slookup name (buildCreditVars credits) = creditVariable entry := by
  rw [buildCreditVars_eq]
  induction credits with
  | nil => simp at hmem
  | cons c rest ih =>
    simp only [List.map_cons, List.nodup_cons] at hnodup
    rcases List.mem_cons.mp hmem with heq | hmem1
    · have hc : c = (name, entry) := heq.symm
      subst hc
      cases hv : creditVariable entry with
      | some v =>
        simp only [List.filterMap_cons] at *
        rw [hv]
        simp [slookup]
      | none =>
        simp only [List.filterMap_cons] at *
        rw [hv]
        simp only [Option.map_none']
        exact slookup_eq_none fun kv hkv hctr => hnodup.1 (by
          have hk := mem_filterMap_key rest _ creditEntry_key kv hkv
          rw [hctr] at hk
          exact hk)
    · have hname : name ∈ rest.map Prod.fst := List.mem_map_of_mem Prod.fst hmem1
      have hcn : c.1 ≠ name := fun hc => hnodup.1 (hc ▸ hname)
      cases hcv : creditVariable c.2 with
      | none =>
        simp only [List.filterMap_cons, hcv, Option.map_none']
        exact ih hnodup.2 hmem1
      | some w =>
        simp only [List.filterMap_cons, hcv, Option.map_some']
        rw [slookup, if_neg hcn]
        exact ih hnodup.2 hmem1

theorem countP_buildCreditVars (credits : List (String × Option PyVal))
    (name : String) (entry : Option PyVal) (v : NumVar)
    (hnodup : (credits.map Prod.fst).Nodup) (hmem : (name, entry) ∈ credits)
    (hv : creditVariable entry = some v) :
    (buildCreditVars credits).countP (fun kv => kv.1 == name) = 1 := by
  rw [buildCreditVars_eq]
  induction credits with
  | nil => simp at hmem
  | cons c rest ih =>
    simp only [List.map_cons, List.nodup_cons] at hnodup
    rcases List.mem_cons.mp hmem with heq | hmem1
    · have hc : c = (name, entry) := heq.symm
      subst hc
      simp only [List.filterMap_cons]
      rw [hv]
      simp only [Option.map_some', List.countP_cons]
      have hzero : (List.filterMap
          (fun c => Option.map (fun v => (c.1, v)) (creditVariable c.2)) rest).countP
            (fun kv => kv.1 == name) = 0 := by
        rw [List.countP_eq_zero]
        intro kv hkv
        have hk := mem_filterMap_key rest _ creditEntry_key kv hkv
        simp only [beq_iff_eq]
        intro hctr
        rw [hctr] at hk
        exact hnodup.1 hk
      rw [hzero]
      simp
    · have hname : name ∈ rest.map Prod.fst := List.mem_map_of_mem Prod.fst hmem1
      have hcn : c.1 ≠ name := fun hc => hnodup.1 (hc ▸ hname)
      cases hcv : creditVariable c.2 with
      | none =>
        simp only [List.filterMap_cons, hcv, Option.map_none']
        exact ih hnodup.2 hmem1
      | some w =>
        simp only [List.filterMap_cons, hcv, Option.map_some', List.countP_cons]
        rw [ih hnodup.2 hmem1]
        simp [hcn]

theorem ciCreditRows_aux (credits : List (String × Option PyVal))
    (vars : List (String × NumVar)) (p : List (String × ℤ) × List (String × ℤ)) :
    credits.foldl
      (fun acc c =>
        match slookup c.1 vars with
        | some v => (acc.1 ++ [(c.1, creditCoefficient v)], acc.2 ++ [(c.1, creditCoefficient v)])
        | none => acc) p
    = (p.1 ++ credits.filterMap (fun c => (slookup c.1 vars).map fun v => (c.1, creditCoefficient v)),
       p.2 ++ credits.filterMap (fun c => (slookup c.1 vars).map fun v => (c.1, creditCoefficient v))) := by
  induction credits generalizing p with
  | nil => simp
  | cons c rest ih =>
    cases hc : slookup c.1 vars with
    | none => simp [List.foldl_cons, hc, List.filterMap_cons, ih]
    | some v => simp [List.foldl_cons, hc, List.filterMap_cons, ih]

theorem ciCreditRows_eq (credits : List (String × Option PyVal)) :
    ciCreditRows credits
      = (credits.filterMap
          (fun c => (slookup c.1 (buildCreditVars credits)).map
            fun v => (c.1, creditCoefficient v)),
         credits.filterMap
          (fun c => (slookup c.1 (buildCreditVars credits)).map
            fun v => (c.1, creditCoefficient v))) := by
  rw [ciCreditRows, ciCreditRows_aux]
  simp

theorem slookup_coefRows (vars : List (String × NumVar))
    (credits : List (String × Option PyVal)) (name : String) (entry : Option PyVal)
    (hnodup : (credits.map Prod.fst).Nodup) (hmem : (name, entry) ∈ credits) :
    slookup name
        (credits.filterMap (fun c => (slookup c.1 vars).map fun v => (c.1, creditCoefficient v)))
      = (slookup name vars).map creditCoefficient := by
  induction credits with
  | nil => simp at hmem
  | cons c rest ih =>
    simp only [List.map_cons, List.nodup_cons] at hnodup
    rcases List.mem_cons.mp hmem with heq | hmem1
    · have hc : c = (name, entry) := heq.symm
      subst hc
      cases hsv : slookup name vars with
      | some v =>
        simp only [List.filterMap_cons] at *
        rw [hsv]
        simp [slookup]
      | none =>
        simp only [List.filterMap_cons] at *
        rw [hsv]
        simp only [Option.map_none']
        exact slookup_eq_none fun kv hkv hctr => hnodup.1 (by
          have hk := mem_filterMap_key rest _ (coefEntry_key vars) kv hkv
          rw [hctr] at hk
          exact hk)
    · have hname : name ∈ rest.map Prod.fst := List.mem_map_of_mem Prod.fst hmem1
      have hcn : c.1 ≠ name := fun hc => hnodup.1 (hc ▸ hname)
      cases hcv : slookup c.1 vars with
      | none =>
        simp only [List.filterMap_cons, hcv, Option.map_none']
        exact ih hnodup.2 hmem1
      | some w =>
        simp only [List.filterMap_cons, hcv, Option.map_some']
        rw [slookup, if_neg hcn]
        exact ih hnodup.2 hmem1

theorem creditVariable_nonzero (q : ℚ) (hq : q ≠ 0) :
    creditVariable (some (.num q))
      = some (if 0 < q then ⟨.num 0, .num q⟩ else ⟨.num (-q), .inf⟩) := by
  simp only [creditVariable, PyVal.truthy, PyVal.gt, PyVal.lt, PyVal.neg]
  rw [if_pos (by simpa using hq)]
  by_cases h : 0 < q
  · rw [if_pos (by simpa using h), if_pos h]
  · rw [if_neg (by simpa using h), if_neg h]

theorem creditCoefficient_nonzero (q : ℚ) (hq : q ≠ 0) :
    creditCoefficient (if 0 < q then ⟨.num 0, .num q⟩ else ⟨.num (-q), .inf⟩)
      = if 0 < q then 1 else -1 := by
  by_cases h : 0 < q
  · rw [if_pos h, if_pos h]
    simp [creditCoefficient, PyVal.gt, PyVal.lt]
  · have hneg : 0 < -q := by
      rcases lt_trichotomy q 0 with hlt | hz | hgt
      · linarith
      · exact absurd hz hq
      · exact absurd hgt h
    rw [if_neg h, if_neg h]
    simp [creditCoefficient, PyVal.gt, PyVal.lt, hneg]

/-- C1: for every credit program whose externally supplied quantity for the
model year is a non-zero number `q`, `_add_feedstocks` creates exactly one
credit-trading variable, bounded `[0, q]` when `q > 0` and `[-q, +inf]` when
`q < 0`; and `_set_ci_constraint` gives that variable coefficient `+1` when it
is a bank (`q > 0`, lower bound 0) and `-1` when it is an obligation
(`q < 0`, positive lower bound), identically in the program's own CI
constraint (first component) and in the aggregate `total` constraint (second
component). -/
theorem C1_credit_variable_sign (credits : List (String × Option PyVal))
    (name : String) (q : ℚ) (hq : q ≠ 0)
    (hmem : (name, some (.num q)) ∈ credits)
    (hnodup : (credits.map Prod.fst).Nodup) :
    slookup name (buildCreditVars credits)
        = some (if 0 < q then ⟨.num 0, .num q⟩ else ⟨.num (-q), .inf⟩) ∧
    (buildCreditVars credits).countP (fun kv => kv.1 == name) = 1 ∧
    slookup name (ciCreditRows credits).1 = some (if 0 < q then 1 else -1) ∧
    slookup name (ciCreditRows credits).2 = some (if 0 < q then 1 else -1) := by
  have hv := creditVariable_nonzero q hq
  have h1 : slookup name (buildCreditVars credits)
      = some (if 0 < q then ⟨.num 0, .num q⟩ else ⟨.num (-q), .inf⟩) := by
    rw [slookup_buildCreditVars credits name (some (.num q)) hnodup hmem, hv]
  have hrows : slookup name
      (credits.filterMap (fun c => (slookup c.1 (buildCreditVars credits)).map
        fun v => (c.1, creditCoefficient v)))
      = some (if 0 < q then 1 else -1) := by
    rw [slookup_coefRows (buildCreditVars credits) credits name (some (.num q)) hnodup hmem,
      h1]
    simp only [Option.map_some']
    rw [creditCoefficient_nonzero q hq]
  refine ⟨h1, countP_buildCreditVars credits name (some (.num q)) _ hnodup hmem
    (by rw [hv]), ?_, ?_⟩
  · rw [ciCreditRows_eq]
    exact hrows
  · rw [ciCreditRows_eq]
    exact hrows

/-- Witness for C1: a bank program with supply 5 and an obligation program
with supply -5, in a two-program registry. -/
theorem C1_witness :
    ((5:ℚ) ≠ 0 ∧
      slookup "LCFS" (buildCreditVars [("LCFS", some (.num 5)), ("Other", some (.num (-5)))])
        = some ⟨.num 0, .num 5⟩ ∧
      slookup "LCFS" (ciCreditRows [("LCFS", some (.num 5)), ("Other", some (.num (-5)))]).1
        = some 1 ∧
      slookup "LCFS" (ciCreditRows [("LCFS", some (.num 5)), ("Other", some (.num (-5)))]).2
        = some 1) ∧
    (((-5):ℚ) ≠ 0 ∧
      slookup "Other" (buildCreditVars [("LCFS", some (.num 5)), ("Other", some (.num (-5)))])
        = some ⟨.num (-(-5)), .inf⟩ ∧
      slookup "Other" (ciCreditRows [("LCFS", some (.num 5)), ("Other", some (.num (-5)))]).1
        = some (-1) ∧
      slookup "Other" (ciCreditRows [("LCFS", some (.num 5)), ("Other", some (.num (-5)))]).2
        = some (-1)) := by
  have hA := C1_credit_variable_sign [("LCFS", some (.num 5)), ("Other", some (.num (-5)))]
    "LCFS" 5 (by norm_num) (by simp) (by simp)
  have hB := C1_credit_variable_sign [("LCFS", some (.num 5)), ("Other", some (.num (-5)))]
    "Other" (-5) (by norm_num) (by simp) (by simp)
  rw [if_pos (by norm_num : (0:ℚ) < 5)] at hA
  rw [if_neg (by norm_num : ¬ (0:ℚ) < -5)] at hB
  exact ⟨⟨by norm_num, hA.1, hA.2.2.1, hA.2.2.2⟩, by norm_num, hB.1, hB.2.2.1, hB.2.2.2⟩

/-!
## Claim C3 — roll-forward supply bounds
-/

set_option maxHeartbeats 1000000 in
/-- C3 (counterexample): with default change limit p = 9/10 and realized
production Q = 4e9, the derived minimum (1-p)Q = 4e8 is zeroed (below the
1e9 threshold), and `_set_supply_constraint` then recovers the old production
from that zeroed minimum — obtaining 0 — so the next-year maximum is the bare
floor volume 5791500000, not the claimed max((1+p)Q, floorVolume) = 7.6e9. -/
theorem C3_counterexample :
    set_supply_bound (9/10) (calculate_incremental_limits (9/10) [("F", 4000000000)]) 2021
      ⟨"F", [], []⟩ = .ok (some (.num 0, .num floorVolume)) ∧
    floorVolume ≠ max ((1 + 9/10) * 4000000000) floorVolume ∧
    ((1 - 9/10) * 4000000000 < materialityThreshold) := by
  refine ⟨?_, by norm_num [floorVolume, max_def], by norm_num [materialityThreshold]⟩
  norm_num [set_supply_bound, calculate_incremental_limits, materialityThreshold, floorVolume,
    alookup, slookup, PyVal.beq, PyVal.div, PyVal.sub, PyVal.neg, PyVal.add, PyVal.mul,
    pymax, pymin, PyVal.lt, PyVal.gt]

/-- C3 (amended): for a fuel with no externally configured bounds, default
change limit 0 < p < 1 and realized year-N production Q >= 0, the roll-forward
pipeline (`_calculate_incremental_limits` followed by
`_set_supply_constraint`) registers year N+1 bounds
[(1-p)Q, max((1+p)Q, floorVolume)] as long as (1-p)Q is at or above the
materiality threshold; when (1-p)Q falls below the threshold the minimum is
zeroed and — because the maximum is recomputed from the zeroed minimum — the
maximum collapses to the bare floorVolume rather than max((1+p)Q,
floorVolume). -/
theorem C3_rollforward_amended (p Q : ℚ) (name : String) (year : ℤ)
    (hp0 : 0 < p) (hp1 : p < 1) (hQ : 0 ≤ Q) :
    set_supply_bound p (calculate_incremental_limits p [(name, Q)]) year ⟨name, [], []⟩
      = .ok (some
          (if (1 - p) * Q < materialityThreshold
           then (PyVal.num 0, PyVal.num floorVolume)
           else (PyVal.num ((1 - p) * Q), PyVal.num (max ((1 + p) * Q) floorVolume)))) := by
  have hpne : ¬ p = 0 := ne_of_gt hp0
  have hne : ¬ (1:ℚ) - p = 0 := ne_of_gt (by linarith)
  have h1p : (1:ℚ) + -p = 1 - p := by ring
  have hF : (0:ℚ) < floorVolume := by norm_num [floorVolume]
  by_cases hz : (1 - p) * Q < materialityThreshold
  · rw [if_pos hz]
    simp [set_supply_bound, calculate_incremental_limits,
      alookup, slookup, hz, hpne, hne, PyVal.beq, PyVal.lt,
      PyVal.gt, PyVal.div, PyVal.sub, PyVal.neg, PyVal.add, PyVal.mul, pymax, pymin,
      zero_div, mul_zero, h1p, hF, hF.not_lt, hF.ne']
  · rw [if_neg hz]
    have hz' : ¬ ((1 - p) * Q < materialityThreshold) := hz
    have hT : (1000000000:ℚ) ≤ (1 - p) * Q := not_lt.mp (by simpa [materialityThreshold] using hz)
    have hpos : (0:ℚ) < (1 - p) * Q := lt_of_lt_of_le (by norm_num) hT
    have hdiv : (1 - p) * Q / (1 - p) = Q := by field_simp
    have hle : (1 - p) * Q ≤ max ((1 + p) * Q) floorVolume :=
      le_trans (by nlinarith) (le_max_left _ _)
    have hmax0 : (0:ℚ) ⊔ ((1 - p) * Q) = (1 - p) * Q := max_eq_right hpos.le
    have hgt : ¬ (((1 + p) * Q) ⊔ floorVolume < (1 - p) * Q) := not_lt.mpr hle
    simp [set_supply_bound, calculate_incremental_limits,
      alookup, slookup, hz', hpne, hne, PyVal.beq, PyVal.lt,
      PyVal.gt, PyVal.div, PyVal.sub, PyVal.neg, PyVal.add, PyVal.mul,
      hdiv, h1p, pymax_num, pymin, hmax0, hpos.ne', hgt, hpos, hle]

/-- Witness for C3: p = 1/2, Q = 4e9 — the minimum 2e9 stays above the
threshold and the registered bounds are [2e9, max(6e9, floorVolume)]. -/
theorem C3_witness :
    ((0:ℚ) < 1/2) ∧ ((1:ℚ)/2 < 1) ∧ ((0:ℚ) ≤ 4000000000) ∧
    set_supply_bound (1/2) (calculate_incremental_limits (1/2) [("F", 4000000000)]) 2021
        ⟨"F", [], []⟩
      = .ok (some
          (if (1 - 1/2) * 4000000000 < materialityThreshold
           then (PyVal.num 0, PyVal.num floorVolume)
           else (PyVal.num ((1 - 1/2) * 4000000000),
                 PyVal.num (max ((1 + 1/2) * 4000000000) floorVolume)))) :=
  ⟨by norm_num, by norm_num, by norm_num,
   C3_rollforward_amended (1/2) 4000000000 "F" 2021 (by norm_num) (by norm_num) (by norm_num)⟩

/-!
## Claim C4 — minimum above maximum fails before the solver runs
-/

theorem set_supply_constraint_error (d : ℚ) (prior : List (String × (ℚ × ℚ)))
    (year : ℤ) (fuels : List FuelData)
    (h : ∃ f ∈ fuels, exceptFailed (set_supply_bound d prior year f) = true) :
    exceptFailed (set_supply_constraint d prior year fuels) = true := by
  induction fuels with
  | nil => obtain ⟨f, hf, _⟩ := h; simp at hf
  | cons g rest ih =>
    rw [set_supply_constraint]
    cases hg : set_supply_bound d prior year g with
    | error e => simp [exceptFailed]
    | ok b =>
      obtain ⟨f, hf, hferr⟩ := h
      rcases List.mem_cons.mp hf with rfl | hf1
      · rw [hg] at hferr
        simp [exceptFailed] at hferr
      · have herr := ih ⟨f, hf1, hferr⟩
        cases hr : set_supply_constraint d prior year rest with
        | error e => cases b <;> simp [hr, exceptFailed]
        | ok os =>
          rw [hr] at herr
          simp [exceptFailed] at herr

/-- C4: when some fuel's effective supply minimum exceeds its effective
maximum, the constraint build raises and `optimize` returns that fatal error
with zero solver invocations — the solver is never called for the request. -/
theorem C4_min_exceeds_max_fails_before_solve (d : ℚ) (prior : List (String × (ℚ × ℚ)))
    (year : ℤ) (fuels : List FuelData) (solver : ℚ → SolveStatus)
    (h : ∃ f ∈ fuels, exceptFailed (set_supply_bound d prior year f) = true) :
    exceptFailed
        (optimizeFrom ((set_supply_constraint d prior year fuels).map fun _ => ())
          solver 0).1 = true ∧
    (optimizeFrom ((set_supply_constraint d prior year fuels).map fun _ => ()) solver 0).2
      = 0 := by
  have herr := set_supply_constraint_error d prior year fuels h
  cases hr : set_supply_constraint d prior year fuels with
  | ok os =>
    rw [hr] at herr
    simp [exceptFailed] at herr
  | error e =>
    rw [emap_error, optimizeFrom.eq_def]
    exact ⟨rfl, rfl⟩

/-- Witness for C4: the spec's scenario — externally configured minimum 100
and maximum 50 for the same fuel and year. -/
theorem C4_witness :
    (∃ f ∈ [(⟨"TestFuel", [(2022, (.num 100, none))], [(2022, (.num 50, .num 0))]⟩ : FuelData)],
      exceptFailed (set_supply_bound (40/100) [] 2022 f) = true) ∧
    exceptFailed
        (optimizeFrom
          ((set_supply_constraint (40/100) [] 2022
            [⟨"TestFuel", [(2022, (.num 100, none))], [(2022, (.num 50, .num 0))]⟩]).map
              fun _ => ())
          (fun _ => SolveStatus.optimal) 0).1 = true ∧
    (optimizeFrom
        ((set_supply_constraint (40/100) [] 2022
          [⟨"TestFuel", [(2022, (.num 100, none))], [(2022, (.num 50, .num 0))]⟩]).map
            fun _ => ())
        (fun _ => SolveStatus.optimal) 0).2 = 0 := by
  have hbad : exceptFailed (set_supply_bound (40/100) [] 2022
      ⟨"TestFuel", [(2022, (.num 100, none))], [(2022, (.num 50, .num 0))]⟩) = true := by
    norm_num [set_supply_bound, alookup, slookup, PyVal.beq, pymax, pymin, PyVal.lt,
      PyVal.gt, exceptFailed]
  have h : ∃ f ∈ [(⟨"TestFuel", [(2022, (.num 100, none))],
      [(2022, (.num 50, .num 0))]⟩ : FuelData)],
      exceptFailed (set_supply_bound (40/100) [] 2022 f) = true :=
    ⟨_, by simp, hbad⟩
  obtain ⟨h1, h2⟩ := C4_min_exceeds_max_fails_before_solve (40/100) [] 2022
    [⟨"TestFuel", [(2022, (.num 100, none))], [(2022, (.num 50, .num 0))]⟩]
    (fun _ => SolveStatus.optimal) h
  exact ⟨h, h1, h2⟩

/-!
## Claim C8 — bounded tolerance retry always terminates
-/

theorem opt_step_retry (solver : ℚ → SolveStatus) (k : ℕ)
    (hst : solver (toleranceAt k) = SolveStatus.abnormal)
    (h : ¬ toleranceAt k > 10) :
    optimizeFrom (.ok ()) solver k =
      ((optimizeFrom (.ok ()) solver (k + 1)).1, (optimizeFrom (.ok ()) solver (k + 1)).2 + 1) := by
  rw [optimizeFrom.eq_def]
  simp [hst, h]

theorem opt_step_fatal (solver : ℚ → SolveStatus) (k : ℕ)
    (hst : solver (toleranceAt k) = SolveStatus.abnormal)
    (h : toleranceAt k > 10) :
    optimizeFrom (.ok ()) solver k =
      (.error "Model could not be resolved.  There is likely an issue with the magnitude of units being analyzed.", 1) := by
  rw [optimizeFrom.eq_def]
  simp [hst, h]

/-- C8: under a solver that always reports ABNORMAL, the retry loop starting
from the initial tolerance 1e-6 terminates: after exactly 9 solver calls —
tolerances 1e-6, 1e-5, ..., 1, 10, 100 — the tolerance 100 exceeds the fixed
ceiling 10 and a fatal error is raised instead of retrying again. -/
theorem C8_retry_terminates :
    optimizeFrom (.ok ()) (fun _ => SolveStatus.abnormal) 0 =
      (.error "Model could not be resolved.  There is likely an issue with the magnitude of units being analyzed.", 9) ∧
    toleranceAt 8 > 10 ∧ ¬ toleranceAt 7 > 10 := by
  have h8 : optimizeFrom (.ok ()) (fun _ => SolveStatus.abnormal) 8 =
      (.error "Model could not be resolved.  There is likely an issue with the magnitude of units being analyzed.", 1) :=
    opt_step_fatal _ 8 rfl (by rw [toleranceAt_eq]; norm_num)
  have h7 := opt_step_retry (fun _ => SolveStatus.abnormal) 7 rfl (by rw [toleranceAt_eq]; norm_num)
  have h6 := opt_step_retry (fun _ => SolveStatus.abnormal) 6 rfl (by rw [toleranceAt_eq]; norm_num)
  have h5 := opt_step_retry (fun _ => SolveStatus.abnormal) 5 rfl (by rw [toleranceAt_eq]; norm_num)
  have h4 := opt_step_retry (fun _ => SolveStatus.abnormal) 4 rfl (by rw [toleranceAt_eq]; norm_num)
  have h3 := opt_step_retry (fun _ => SolveStatus.abnormal) 3 rfl (by rw [toleranceAt_eq]; norm_num)
  have h2 := opt_step_retry (fun _ => SolveStatus.abnormal) 2 rfl (by rw [toleranceAt_eq]; norm_num)
  have h1 := opt_step_retry (fun _ => SolveStatus.abnormal) 1 rfl (by rw [toleranceAt_eq]; norm_num)
  have h0 := opt_step_retry (fun _ => SolveStatus.abnormal) 0 rfl (by rw [toleranceAt_eq]; norm_num)
  refine ⟨?_, by rw [toleranceAt_eq]; norm_num, by rw [toleranceAt_eq]; norm_num⟩
  rw [h0, h1, h2, h3, h4, h5, h6, h7, h8]
